import Mathlib

/-!
Verification of the PA Audio Analyzer core (pa_analyzer_integrated.py):
the feature-extraction pipeline (`AudioAnalyzer.analyze_2mix` and its
helpers) and the recommendation rule engine (`generate_recommendations`).

Python floats are modelled as exact numbers: rationals (`ℚ`) for the
purely arithmetical recommendation engine, reals (`ℝ`) for the analysis
pipeline, which involves `sqrt` and `log10`.
-/

namespace PA

/-! ## Recommendation engine (`generate_recommendations`) -/

/-- One per-instrument analysis record, as produced by `analyze_instrument`. -/
structure InstrumentData where
  name : String
  freq_low : ℚ
  freq_high : ℚ
  rms_db : ℚ
  peak_db : ℚ
  spectral_centroid : ℚ
deriving DecidableEq

/-- The `analysis_data` dict consumed by `generate_recommendations`:
the full mix descriptor returned by `analyze_2mix` (plus the
`instruments` entry added by the caller). -/
structure AnalysisData where
  rms_db : ℚ
  peak_db : ℚ
  crest_factor : ℚ
  stereo_width : ℚ
  band_energies : List (String × ℚ)
  dynamic_range : ℚ
  duration : ℚ
  instruments : List (String × InstrumentData)
deriving DecidableEq

/-- The `metadata` dict passed (and never read) by `generate_recommendations`. -/
structure Metadata where
  analysis_name : String
  venue : String
  venue_capacity : ℕ
  mixer : String
  pa_system : String
  band_lineup : String
  notes : String
deriving DecidableEq

/-- One advisory message. The Python code appends a formatted string per
triggered rule; each constructor stands for one of those strings, carrying
the metric value interpolated into it. -/
inductive RecMsg where
  | rmsLow (v : ℚ)
  | rmsHigh (v : ℚ)
  | rmsGood (v : ℚ)
  | peakHigh (v : ℚ)
  | peakLow (v : ℚ)
  | cfLow (v : ℚ)
  | cfHigh (v : ℚ)
  | cfGood (v : ℚ)
  | widthNarrow (v : ℚ)
  | widthWide (v : ℚ)
  | widthGood (v : ℚ)
deriving DecidableEq

/-- Whether a message concerns the rms metric. -/
def RecMsg.isRms : RecMsg → Bool
  | .rmsLow _ => true
  | .rmsHigh _ => true
  | .rmsGood _ => true
  | _ => false

/-- The `recommendations` dict: three categorized advisory lists. -/
structure Recommendations where
  critical : List RecMsg
  important : List RecMsg
  good_points : List RecMsg
deriving DecidableEq

/-- Categorywise concatenation (the effect of successive `append`s). -/
def Recommendations.join (a b : Recommendations) : Recommendations :=
  ⟨a.critical ++ b.critical, a.important ++ b.important, a.good_points ++ b.good_points⟩

/-- The rms if/elif chain of `generate_recommendations`. -/
def rmsRule (rms : ℚ) : Recommendations :=
  if rms < -23 then ⟨[.rmsLow rms], [], []⟩
  else if rms > -14 then ⟨[.rmsHigh rms], [], []⟩
  else if -20 ≤ rms ∧ rms ≤ -16 then ⟨[], [], [.rmsGood rms]⟩
  else ⟨[], [], []⟩

/-- The peak if/elif chain of `generate_recommendations`. -/
def peakRule (peak : ℚ) : Recommendations :=
  if peak > -1 then ⟨[.peakHigh peak], [], []⟩
  else if peak < -6 then ⟨[], [.peakLow peak], []⟩
  else ⟨[], [], []⟩

/-- The crest-factor if/elif chain of `generate_recommendations`. -/
def cfRule (cf : ℚ) : Recommendations :=
  if cf < 8 then ⟨[], [.cfLow cf], []⟩
  else if cf > 16 then ⟨[], [.cfHigh cf], []⟩
  else if 10 ≤ cf ∧ cf ≤ 14 then ⟨[], [], [.cfGood cf]⟩
  else ⟨[], [], []⟩

/-- The stereo-width if/elif chain of `generate_recommendations`. -/
def widthRule (width : ℚ) : Recommendations :=
  if width < 30 then ⟨[], [.widthNarrow width], []⟩
  else if width > 80 then ⟨[], [.widthWide width], []⟩
  else if 50 ≤ width ∧ width ≤ 70 then ⟨[], [], [.widthGood width]⟩
  else ⟨[], [], []⟩

/-- Embedding of `generate_recommendations(analysis_data, metadata)`: the four metric
rules are evaluated in the source's order (rms, peak, crest factor,
stereo width), each appending at most one message to its category. -/
def generate_recommendations (analysis_data : AnalysisData) (metadata : Metadata) :
    Recommendations :=
  ((rmsRule analysis_data.rms_db).join
    ((peakRule analysis_data.peak_db).join
      ((cfRule analysis_data.crest_factor).join
        (widthRule analysis_data.stereo_width))))

/-! ## Audio analysis pipeline (`AudioAnalyzer`)

Sample data is modelled over `ℝ`; frequency parameters and the sample
rate over `ℚ` (they are integers in the source). `scipy.signal.butter` /
`sosfilt` — external numerics the source wraps in `try/except` — are
modelled by an abstract filter implementation that either produces an
output or fails (raises). -/

/-- A Python error escaping a pipeline function. `valueError` stands for
the generic errors numpy raises (e.g. a reduction over an empty array).
`invalidInput` is Modelled from the spec: the distinct, descriptive
`InvalidInput` error of the spec's error taxonomy; no such error class
exists anywhere in the source. -/
inductive PyError where
  | valueError
  | invalidInput
deriving DecidableEq

/-- Abstract `scipy` stage: `butter(4, [low, high], btype='band',
output='sos')` followed by `sosfilt` on the audio. `none` models an
exception during filter design or application. -/
structure SosFilter where
  apply : ℚ → ℚ → List ℝ → Option (List ℝ)

/-- An always-failing filter implementation (used to instantiate
theorems at concrete inputs). -/
def failFilter : SosFilter := ⟨fun _ _ _ => none⟩

/-- Embedding of `np.clip(x, lo, hi)` on rationals. -/
def clipQ (x lo hi : ℚ) : ℚ := min (max x lo) hi

noncomputable section

/-- Embedding of `np.clip(x, lo, hi)` on reals. -/
def npClip (x lo hi : ℝ) : ℝ := min (max x lo) hi

/-- Embedding of `np.mean` of a 1-D array (sum divided by length; only ever applied
to non-empty data in the theorems below). -/
def npMean (l : List ℝ) : ℝ := l.sum / l.length

/-- Embedding of `np.mean(y, axis=0)`: the per-sample mean across channels of a
rectangular 2-D array, indexed by the first channel's length. -/
def npMeanAxis0 (y : List (List ℝ)) : List ℝ :=
  match y with
  | [] => []
  | c :: _ => (List.range c.length).map fun i =>
      (y.map fun ch => ch.getD i 0).sum / (y.length : ℝ)

/-- Embedding of `np.max` of a 1-D array: raises `ValueError` on an empty array. -/
def npMax (l : List ℝ) : Except PyError ℝ :=
  match l with
  | [] => .error .valueError
  | x :: xs => .ok (xs.foldl max x)

/-- Embedding of `np.percentile(a, q)` with the default linear interpolation:
sort, take the fractional index `q/100 · (n−1)`, interpolate between
its floor and ceiling neighbours. -/
def npPercentile (l : List ℝ) (q : ℝ) : ℝ :=
  let s := l.mergeSort fun a b => decide (a ≤ b)
  let h : ℝ := q / 100 * ((l.length : ℝ) - 1)
  s.getD (⌊h⌋).toNat 0 + (h - ⌊h⌋) * (s.getD (⌈h⌉).toNat 0 - s.getD (⌊h⌋).toNat 0)

/-- The RMS of one analysis frame: `sqrt(mean(frame²))`. -/
def frameRMS (frame : List ℝ) : ℝ :=
  Real.sqrt ((frame.map fun x => x ^ 2).sum / (frame.length : ℝ))

/-- Embedding of `librosa.feature.rms(y, frame_length, hop_length)[0]` with
`center=True`: pad by `frame_length / 2` zeros on each side, then take
the RMS of each full frame at hop-spaced offsets. -/
def librosaRMS (y : List ℝ) (frame_length hop_length : ℕ) : List ℝ :=
  let padded := List.replicate (frame_length / 2) (0 : ℝ) ++ y ++
    List.replicate (frame_length / 2) (0 : ℝ)
  let nFrames := 1 + (padded.length - frame_length) / hop_length
  (List.range nFrames).map fun i => frameRMS ((padded.drop (hop_length * i)).take frame_length)

/-- The analyzer object state after `load_audio`: sample array `y`
(list of channels), sample rate, duration. -/
structure AudioAnalyzer where
  y : List (List ℝ)
  sr : ℚ
  duration : ℝ

/-- What `librosa.load(path, mono=False)` hands back: a 1-D array for a
mono file, a 2-D channel array otherwise. -/
inductive RawAudio where
  | oneD (samples : List ℝ)
  | twoD (channels : List (List ℝ))

/-- The channel-shaping step of `AudioAnalyzer.load_audio`: a 1-D
(mono) result is duplicated into two identical channels via
`np.stack([y, y])`; a 2-D result is kept as is. -/
def load_audio : RawAudio → List (List ℝ)
  | .oneD s => [s, s]
  | .twoD cs => cs

/-- Embedding of `AudioAnalyzer.bandpass_filter(audio, low, high)`: normalize the
edges by Nyquist, clip to [0.001, 0.999], return silence on a
degenerate window, otherwise run the scipy stage with its failure
absorbed into silence (`except: return audio * 0`). -/
def bandpass_filter (f : SosFilter) (sr : ℚ) (audio : List ℝ) (low high : ℚ) : List ℝ :=
  let nyq : ℚ := sr / 2
  let low_norm : ℚ := clipQ (low / nyq) 0.001 0.999
  let high_norm : ℚ := clipQ (high / nyq) 0.001 0.999
  if high_norm ≤ low_norm then audio.map fun x => x * 0
  else
    match f.apply low_norm high_norm audio with
    | some out => out
    | none => audio.map fun x => x * 0

/-- Embedding of `AudioAnalyzer.calculate_stereo_width()`: mid/side energy ratio in
percent, clipped to [0, 100]; 0 for fewer than two channels or a fully
silent signal. -/
def calculate_stereo_width (y : List (List ℝ)) : ℝ :=
  if y.length < 2 then 0
  else
    let L := y.getD 0 []
    let R := y.getD 1 []
    let mid := List.zipWith (fun a b => (a + b) / 2) L R
    let side := List.zipWith (fun a b => (a - b) / 2) L R
    let mid_energy := (mid.map fun x => x ^ 2).sum
    let side_energy := (side.map fun x => x ^ 2).sum
    if mid_energy + side_energy = 0 then 0
    else npClip (side_energy / (mid_energy + side_energy) * 100) 0 100

/-- The seven fixed full-mix bands of `calculate_band_energies`. -/
def bands : List (String × ℚ × ℚ) :=
  [("sub_bass", 20, 60), ("bass", 60, 250), ("low_mid", 250, 500),
   ("mid", 500, 2000), ("high_mid", 2000, 4000), ("presence", 4000, 8000),
   ("brilliance", 8000, 20000)]

/-- Embedding of `AudioAnalyzer.calculate_band_energies(audio)`: per band, filter
then `20·log10(sqrt(mean(filtered²)) + 1e-10)`. -/
def calculate_band_energies (f : SosFilter) (sr : ℚ) (audio : List ℝ) :
    List (String × ℝ) :=
  bands.map fun b =>
    let filtered := bandpass_filter f sr audio b.2.1 b.2.2
    (b.1, 20 * Real.logb 10 (Real.sqrt (npMean (filtered.map fun x => x ^ 2)) + 1e-10))

/-- Embedding of `AudioAnalyzer.calculate_dynamic_range(audio)`: 95th minus 10th
percentile of the framewise RMS in dB (frame 2048, hop 512). -/
def calculate_dynamic_range (audio : List ℝ) : ℝ :=
  let rms_values := librosaRMS audio 2048 512
  let rms_db := rms_values.map fun r => 20 * Real.logb 10 (r + 1e-10)
  npPercentile rms_db 95 - npPercentile rms_db 10

/-- The full-mix descriptor dict returned by `analyze_2mix`. -/
structure MixDescriptor where
  rms_db : ℝ
  peak_db : ℝ
  crest_factor : ℝ
  stereo_width : ℝ
  band_energies : List (String × ℝ)
  dynamic_range : ℝ
  duration : ℝ

/-- Embedding of `AudioAnalyzer.analyze_2mix()`: mono downmix, framewise-mean RMS in
dB, peak in dB, crest factor, stereo width, band energies, dynamic
range. `np.max` over the absolute mono signal raises on an empty
buffer, which is where an invalid buffer actually surfaces (after the
RMS feature has already been computed); the `Except` propagates that. -/
def analyze_2mix (f : SosFilter) (a : AudioAnalyzer) : Except PyError MixDescriptor :=
  let mono := npMeanAxis0 a.y
  let rms := librosaRMS mono 2048 512
  let rms_db := 20 * Real.logb 10 (npMean rms + 1e-10)
  match npMax (mono.map fun x => |x|) with
  | .error e => .error e
  | .ok peak =>
    let peak_db := 20 * Real.logb 10 (peak + 1e-10)
    .ok { rms_db := rms_db
          peak_db := peak_db
          crest_factor := peak_db - rms_db
          stereo_width := calculate_stereo_width a.y
          band_energies := calculate_band_energies f a.sr mono
          dynamic_range := calculate_dynamic_range mono
          duration := a.duration }

/-- Statement form for C5: analysis succeeded and the returned
descriptor satisfies `rms_db ≤ peak_db`. -/
def rmsLePeakOf (e : Except PyError MixDescriptor) : Prop :=
  match e with
  | .ok d => d.rms_db ≤ d.peak_db
  | .error _ => False

/-- Statement form for C7: analysis succeeded and the descriptor shows
the ε-floor values of a silent buffer. -/
def silentDescriptorOf (e : Except PyError MixDescriptor) : Prop :=
  match e with
  | .ok d =>
      d.rms_db = 20 * Real.logb 10 (1e-10) ∧
      d.peak_db = 20 * Real.logb 10 (1e-10) ∧
      d.rms_db = -200 ∧
      d.dynamic_range = 0
  | .error _ => False

end

/-! ### Helper lemmas about the four metric rules -/

theorem rmsRule_important (x : ℚ) : (rmsRule x).important = [] := by
  unfold rmsRule; split_ifs <;> rfl

theorem peakRule_good (x : ℚ) : (peakRule x).good_points = [] := by
  unfold peakRule; split_ifs <;> rfl

theorem cfRule_critical (x : ℚ) : (cfRule x).critical = [] := by
  unfold cfRule; split_ifs <;> rfl

theorem widthRule_critical (x : ℚ) : (widthRule x).critical = [] := by
  unfold widthRule; split_ifs <;> rfl

theorem peakRule_not_rms (x : ℚ) (msg : RecMsg) (hm : msg.isRms = true) :
    msg ∉ (peakRule x).critical ∧ msg ∉ (peakRule x).important ∧
      msg ∉ (peakRule x).good_points := by
  cases msg <;> simp [RecMsg.isRms] at hm <;>
    unfold peakRule <;> split_ifs <;> simp

theorem cfRule_not_rms (x : ℚ) (msg : RecMsg) (hm : msg.isRms = true) :
    msg ∉ (cfRule x).critical ∧ msg ∉ (cfRule x).important ∧
      msg ∉ (cfRule x).good_points := by
  cases msg <;> simp [RecMsg.isRms] at hm <;>
    unfold cfRule <;> split_ifs <;> simp

theorem widthRule_not_rms (x : ℚ) (msg : RecMsg) (hm : msg.isRms = true) :
    msg ∉ (widthRule x).critical ∧ msg ∉ (widthRule x).important ∧
      msg ∉ (widthRule x).good_points := by
  cases msg <;> simp [RecMsg.isRms] at hm <;>
    unfold widthRule <;> split_ifs <;> simp

/-! ### Helper lemmas about the analysis pipeline -/

theorem map_mul_zero (l : List ℝ) : (l.map fun x => x * 0) = List.replicate l.length 0 := by
  induction l with
  | nil => rfl
  | cons a t ih => simp [ih, List.replicate_succ]

theorem stereo_width_nonneg_le (y : List (List ℝ)) :
    0 ≤ calculate_stereo_width y ∧ calculate_stereo_width y ≤ 100 := by
  simp only [calculate_stereo_width, npClip]
  split_ifs with h1 h2
  · norm_num
  · norm_num
  · exact ⟨le_min (le_max_right _ _) (by norm_num), min_le_right _ _⟩

theorem stereo_width_zero_of_short (y : List (List ℝ)) (h : y.length < 2) :
    calculate_stereo_width y = 0 := by
  unfold calculate_stereo_width
  rw [if_pos h]

theorem stereo_width_zero_of_silent (y : List (List ℝ))
    (hE : ((List.zipWith (fun a b => (a + b) / 2) (y.getD 0 []) (y.getD 1 [])).map
        fun x => x ^ 2).sum +
      ((List.zipWith (fun a b => (a - b) / 2) (y.getD 0 []) (y.getD 1 [])).map
        fun x => x ^ 2).sum = 0) :
    calculate_stereo_width y = 0 := by
  simp only [calculate_stereo_width]
  split_ifs with h1 <;> rfl

theorem stereo_width_zero_of_identical (y : List (List ℝ))
    (h : y.getD 0 [] = y.getD 1 []) : calculate_stereo_width y = 0 := by
  have hside : ((List.zipWith (fun a b => (a - b) / 2) (y.getD 0 []) (y.getD 1 [])).map
      fun x => x ^ 2).sum = 0 := by
    rw [h, List.zipWith_same]
    simp
  simp only [calculate_stereo_width, npClip]
  split_ifs with h1 h2
  · rfl
  · rfl
  · rw [hside]
    norm_num

/-! ### Max, mean and frame bounds -/

theorem foldl_max_ub (xs : List ℝ) : ∀ x : ℝ, ∀ y ∈ x :: xs, y ≤ xs.foldl max x := by
  induction xs with
  | nil => intro x y hy; simp at hy; simp [hy]
  | cons a t ih =>
    intro x y hy
    rcases List.mem_cons.mp hy with rfl | hy'
    · calc y ≤ max y a := le_max_left _ _
        _ ≤ t.foldl max (max y a) := ih (max y a) _ (List.mem_cons_self _ _)
    · rcases List.mem_cons.mp hy' with rfl | hy''
      · calc y ≤ max x y := le_max_right _ _
          _ ≤ t.foldl max (max x y) := ih (max x y) _ (List.mem_cons_self _ _)
      · exact ih (max x a) y (List.mem_cons_of_mem _ hy'')

theorem foldl_max_mem (xs : List ℝ) : ∀ x : ℝ, xs.foldl max x ∈ x :: xs := by
  induction xs with
  | nil => intro x; simp
  | cons a t ih =>
    intro x
    simp only [List.foldl_cons]
    have h := ih (max x a)
    rcases List.mem_cons.mp h with heq | hmem
    · rw [heq]
      rcases max_choice x a with hx | ha
      · rw [hx]; exact List.mem_cons_self _ _
      · rw [ha]; exact List.mem_cons_of_mem _ (List.mem_cons_self _ _)
    · exact List.mem_cons_of_mem _ (List.mem_cons_of_mem _ hmem)

theorem npMax_spec (l : List ℝ) (hl : l ≠ []) :
    ∃ p, npMax l = .ok p ∧ p ∈ l ∧ ∀ y ∈ l, y ≤ p := by
  cases l with
  | nil => exact absurd rfl hl
  | cons x xs => exact ⟨xs.foldl max x, rfl, foldl_max_mem xs x, foldl_max_ub xs x⟩

theorem npMean_le (l : List ℝ) (p : ℝ) (hl : l ≠ []) (h : ∀ x ∈ l, x ≤ p) :
    npMean l ≤ p := by
  unfold npMean
  have hlen : 0 < (l.length : ℝ) := by
    have := List.length_pos.mpr hl
    exact_mod_cast this
  rw [div_le_iff₀ hlen]
  calc l.sum ≤ l.length • p := List.sum_le_card_nsmul l p h
    _ = (l.length : ℝ) * p := nsmul_eq_mul _ _
    _ = p * (l.length : ℝ) := mul_comm _ _

theorem npMean_nonneg (l : List ℝ) (h : ∀ x ∈ l, 0 ≤ x) : 0 ≤ npMean l :=
  div_nonneg (List.sum_nonneg h) (Nat.cast_nonneg _)

theorem npMean_zero (l : List ℝ) (h : ∀ x ∈ l, x = 0) : npMean l = 0 := by
  unfold npMean
  rw [List.sum_eq_zero h, zero_div]

theorem frameRMS_nonneg (frame : List ℝ) : 0 ≤ frameRMS frame :=
  Real.sqrt_nonneg _

theorem frameRMS_le (frame : List ℝ) (p : ℝ) (hp : 0 ≤ p)
    (h : ∀ x ∈ frame, |x| ≤ p) : frameRMS frame ≤ p := by
  unfold frameRMS
  have hsum : (frame.map fun x => x ^ 2).sum ≤ (frame.map fun x => x ^ 2).length • (p ^ 2) := by
    apply List.sum_le_card_nsmul
    intro z hz
    obtain ⟨x, hx, rfl⟩ := List.mem_map.mp hz
    have := abs_le.mp (h x hx)
    exact sq_le_sq' this.1 this.2
  have hdiv : (frame.map fun x => x ^ 2).sum / (frame.length : ℝ) ≤ p ^ 2 := by
    rcases Nat.eq_zero_or_pos frame.length with h0 | hpos
    · rcases List.length_eq_zero.mp h0 with rfl
      simp [sq_nonneg]
    · have hlen : 0 < (frame.length : ℝ) := by exact_mod_cast hpos
      rw [div_le_iff₀ hlen]
      calc (frame.map fun x => x ^ 2).sum
          ≤ (frame.map fun x => x ^ 2).length • (p ^ 2) := hsum
        _ = (frame.length : ℝ) * p ^ 2 := by rw [List.length_map, nsmul_eq_mul]
        _ = p ^ 2 * (frame.length : ℝ) := mul_comm _ _
  calc Real.sqrt ((frame.map fun x => x ^ 2).sum / (frame.length : ℝ))
      ≤ Real.sqrt (p ^ 2) := Real.sqrt_le_sqrt hdiv
    _ = p := Real.sqrt_sq hp

theorem librosaRMS_ne_nil (y : List ℝ) (fl hl : ℕ) : librosaRMS y fl hl ≠ [] := by
  simp only [librosaRMS, ne_eq, List.map_eq_nil_iff, List.range_eq_nil]
  simp [Nat.add_eq_zero]

theorem librosaRMS_nonneg (y : List ℝ) (fl hl : ℕ) :
    ∀ r ∈ librosaRMS y fl hl, 0 ≤ r := by
  intro r hr
  simp only [librosaRMS, List.mem_map] at hr
  obtain ⟨i, _, rfl⟩ := hr
  exact frameRMS_nonneg _

theorem librosaRMS_le (y : List ℝ) (fl hl : ℕ) (p : ℝ) (hp : 0 ≤ p)
    (h : ∀ x ∈ y, |x| ≤ p) : ∀ r ∈ librosaRMS y fl hl, r ≤ p := by
  intro r hr
  simp only [librosaRMS, List.mem_map] at hr
  obtain ⟨i, _, rfl⟩ := hr
  apply frameRMS_le _ p hp
  intro x hx
  have hx' : x ∈ List.replicate (fl / 2) (0 : ℝ) ++ y ++ List.replicate (fl / 2) (0 : ℝ) :=
    List.drop_subset _ _ (List.take_subset _ _ hx)
  simp only [List.mem_append, List.mem_replicate] at hx'
  rcases hx' with (⟨_, rfl⟩ | hxy) | ⟨_, rfl⟩
  · simpa using hp
  · exact h x hxy
  · simpa using hp

theorem npMeanAxis0_ne_nil (c : List ℝ) (cs : List (List ℝ)) (hc : c ≠ []) :
    npMeanAxis0 (c :: cs) ≠ [] := by
  simp only [npMeanAxis0, ne_eq, List.map_eq_nil_iff, List.range_eq_nil,
    List.length_eq_zero]
  exact hc

theorem npMeanAxis0_zero (y : List (List ℝ)) (hz : ∀ ch ∈ y, ∀ x ∈ ch, x = 0) :
    ∀ x ∈ npMeanAxis0 y, x = 0 := by
  intro x hx
  cases y with
  | nil => simp [npMeanAxis0] at hx
  | cons c cs =>
    simp only [npMeanAxis0, List.mem_map] at hx
    obtain ⟨i, _, rfl⟩ := hx
    have hznum : ∀ z ∈ (c :: cs).map fun ch => ch.getD i 0, z = 0 := by
      intro z hzz
      obtain ⟨ch, hch, rfl⟩ := List.mem_map.mp hzz
      rcases Nat.lt_or_ge i ch.length with hi | hi
      · rw [List.getD_eq_getElem ch 0 hi]
        exact hz ch hch _ (List.getElem_mem _)
      · exact List.getD_eq_default ch 0 hi
    rw [List.sum_eq_zero hznum, zero_div]

theorem analyze_2mix_ok (f : SosFilter) (ys : List (List ℝ)) (sr : ℚ) (dur : ℝ)
    (p : ℝ) (hp : npMax ((npMeanAxis0 ys).map fun x => |x|) = .ok p) :
    analyze_2mix f ⟨ys, sr, dur⟩ = .ok
      { rms_db := 20 * Real.logb 10 (npMean (librosaRMS (npMeanAxis0 ys) 2048 512) + 1e-10)
        peak_db := 20 * Real.logb 10 (p + 1e-10)
        crest_factor := 20 * Real.logb 10 (p + 1e-10) -
          20 * Real.logb 10 (npMean (librosaRMS (npMeanAxis0 ys) 2048 512) + 1e-10)
        stereo_width := calculate_stereo_width ys
        band_energies := calculate_band_energies f sr (npMeanAxis0 ys)
        dynamic_range := calculate_dynamic_range (npMeanAxis0 ys)
        duration := dur } := by
  simp only [analyze_2mix]
  rw [hp]

/-! ### Percentile of a constant array -/

theorem getD_of_all_eq (l : List ℝ) (cst : ℝ) (i : ℕ) (hi : i < l.length)
    (hall : ∀ x ∈ l, x = cst) : l.getD i 0 = cst := by
  rw [List.getD_eq_getElem l 0 hi]
  exact hall _ (List.getElem_mem _)

theorem logb_ten_eps : Real.logb 10 (1e-10) = -10 := by
  rw [show (1e-10 : ℝ) = ((10 : ℝ) ^ (10 : ℕ))⁻¹ by norm_num]
  rw [Real.logb_inv, Real.logb_pow, Real.logb_self_eq_one (by norm_num)]
  norm_num

theorem npPercentile_const (l : List ℝ) (cst q : ℝ) (hne : l ≠ [])
    (hall : ∀ x ∈ l, x = cst) (hq0 : 0 ≤ q) (hq1 : q ≤ 100) :
    npPercentile l q = cst := by
  have hlen : 1 ≤ l.length := List.length_pos.mpr hne
  have hslen : (l.mergeSort fun a b => decide (a ≤ b)).length = l.length :=
    List.length_mergeSort l
  have hsall : ∀ x ∈ l.mergeSort fun a b => decide (a ≤ b), x = cst := fun x hx =>
    hall x (List.mem_mergeSort.mp hx)
  simp only [npPercentile]
  set hidx : ℝ := q / 100 * ((l.length : ℝ) - 1) with hh
  have hn1 : (0 : ℝ) ≤ (l.length : ℝ) - 1 := by
    have h1 : (1 : ℝ) ≤ (l.length : ℝ) := by exact_mod_cast hlen
    linarith
  have hidx0 : 0 ≤ hidx := mul_nonneg (div_nonneg hq0 (by norm_num)) hn1
  have hidx_le : hidx ≤ (l.length : ℝ) - 1 := by
    have hq : q / 100 ≤ 1 := (div_le_one (by norm_num)).mpr hq1
    calc hidx = q / 100 * ((l.length : ℝ) - 1) := rfl
      _ ≤ 1 * ((l.length : ℝ) - 1) := mul_le_mul_of_nonneg_right hq hn1
      _ = (l.length : ℝ) - 1 := one_mul _
  have hfloor_le : ⌊hidx⌋ ≤ (l.length : ℤ) - 1 := by
    have h2 : ⌊(l.length : ℝ) - 1⌋ = (l.length : ℤ) - 1 := by
      rw [show ((l.length : ℝ) - 1) = (((l.length : ℤ) - 1 : ℤ) : ℝ) by push_cast; ring]
      exact Int.floor_intCast _
    calc ⌊hidx⌋ ≤ ⌊(l.length : ℝ) - 1⌋ := Int.floor_le_floor hidx_le
      _ = (l.length : ℤ) - 1 := h2
  have hfl0 : 0 ≤ ⌊hidx⌋ := Int.floor_nonneg.mpr hidx0
  have hfl_lt : (⌊hidx⌋).toNat < (l.mergeSort fun a b => decide (a ≤ b)).length := by
    rw [hslen]; omega
  have hceil_le : ⌈hidx⌉ ≤ (l.length : ℤ) - 1 := by
    rw [Int.ceil_le]
    rw [show (((l.length : ℤ) - 1 : ℤ) : ℝ) = (l.length : ℝ) - 1 by push_cast; ring]
    exact hidx_le
  have hcl0 : 0 ≤ ⌈hidx⌉ := Int.ceil_nonneg hidx0
  have hcl_lt : (⌈hidx⌉).toNat < (l.mergeSort fun a b => decide (a ≤ b)).length := by
    rw [hslen]; omega
  rw [getD_of_all_eq _ cst _ hfl_lt hsall, getD_of_all_eq _ cst _ hcl_lt hsall]
  ring

/-! ### Claim theorems for the recommendation engine -/

/-- C3: for the descriptor with rms_db = −25, peak_db = −3,
crest_factor = 6, stereo_width = 20, `generate_recommendations` returns
exactly one critical message (low rms), no peak message, exactly two
important messages — low crest factor then narrow stereo width, in that
order — and an empty good list. -/
theorem c3_scenario_recommendations :
    generate_recommendations
      ⟨-25, -3, 6, 20, [], 0, 0, []⟩ ⟨"", "", 0, "", "", "", ""⟩ =
      ⟨[RecMsg.rmsLow (-25)], [RecMsg.cfLow 6, RecMsg.widthNarrow 20], []⟩ := by
  decide

/-- C8: `generate_recommendations` is a pure, deterministic function of
the descriptor — the (never-read) metadata argument does not influence
the result — and each of the three output categories is exactly the
concatenation of the per-metric contributions in the fixed metric order
rms, peak, crest factor, stereo width. -/
theorem c8_pure_and_order_stable :
    ∀ (d : AnalysisData) (m m' : Metadata),
      generate_recommendations d m = generate_recommendations d m' ∧
      (generate_recommendations d m).critical =
        (rmsRule d.rms_db).critical ++ (peakRule d.peak_db).critical ∧
      (generate_recommendations d m).important =
        (peakRule d.peak_db).important ++ ((cfRule d.crest_factor).important ++
          (widthRule d.stereo_width).important) ∧
      (generate_recommendations d m).good_points =
        (rmsRule d.rms_db).good_points ++ ((cfRule d.crest_factor).good_points ++
          (widthRule d.stereo_width).good_points) := by
  intro d m m'
  refine ⟨rfl, ?_, ?_, ?_⟩ <;>
    simp [generate_recommendations, Recommendations.join, rmsRule_important,
      peakRule_good, cfRule_critical, widthRule_critical]

/-- C9: the output of `generate_recommendations` depends only on the
four fields rms_db, peak_db, crest_factor and stereo_width of the
descriptor; the metadata argument and every other descriptor field
(band_energies, dynamic_range, duration, instruments) have no
influence. -/
theorem c9_depends_only_on_four_fields :
    ∀ (d₁ d₂ : AnalysisData) (m₁ m₂ : Metadata),
      d₁.rms_db = d₂.rms_db → d₁.peak_db = d₂.peak_db →
      d₁.crest_factor = d₂.crest_factor → d₁.stereo_width = d₂.stereo_width →
      generate_recommendations d₁ m₁ = generate_recommendations d₂ m₂ := by
  intro d₁ d₂ m₁ m₂ h₁ h₂ h₃ h₄
  unfold generate_recommendations
  rw [h₁, h₂, h₃, h₄]

/-- Witness for C9: two descriptors agreeing on the four metric fields
but differing in band_energies, dynamic_range, duration, instruments
and metadata produce identical recommendations. -/
theorem c9_witness :
    generate_recommendations
      ⟨-18, -3, 12, 60, [("bass", 1)], 5, 99, [("vocals", ⟨"v", 200, 4000, 1, 2, 3⟩)]⟩
      ⟨"a", "b", 150, "c", "d", "e", "f"⟩ =
    generate_recommendations
      ⟨-18, -3, 12, 60, [], 0, 0, []⟩ ⟨"", "", 0, "", "", "", ""⟩ :=
  c9_depends_only_on_four_fields _ _ _ _ rfl rfl rfl rfl

/-- C4: rms_db of exactly −20 and exactly −16 both produce a
good-category rms message (the good band is inclusive at both ends),
while rms_db = −22 — strictly between the critical-low threshold −23
and the good band — produces no rms-related message in any category. -/
theorem c4_rms_boundaries :
    (∀ (d : AnalysisData) (m : Metadata), d.rms_db = -20 →
      RecMsg.rmsGood (-20) ∈ (generate_recommendations d m).good_points) ∧
    (∀ (d : AnalysisData) (m : Metadata), d.rms_db = -16 →
      RecMsg.rmsGood (-16) ∈ (generate_recommendations d m).good_points) ∧
    (∀ (d : AnalysisData) (m : Metadata), d.rms_db = -22 →
      ∀ msg : RecMsg, msg.isRms = true →
        msg ∉ (generate_recommendations d m).critical ∧
        msg ∉ (generate_recommendations d m).important ∧
        msg ∉ (generate_recommendations d m).good_points) := by
  refine ⟨?_, ?_, ?_⟩
  · intro d m h
    simp [generate_recommendations, Recommendations.join, h,
      show rmsRule (-20) = ⟨[], [], [.rmsGood (-20)]⟩ from by decide]
  · intro d m h
    simp [generate_recommendations, Recommendations.join, h,
      show rmsRule (-16) = ⟨[], [], [.rmsGood (-16)]⟩ from by decide]
  · intro d m h msg hm
    have hp := peakRule_not_rms d.peak_db msg hm
    have hc := cfRule_not_rms d.crest_factor msg hm
    have hw := widthRule_not_rms d.stereo_width msg hm
    simp [generate_recommendations, Recommendations.join, h,
      show rmsRule (-22) = ⟨[], [], []⟩ from by decide]
    exact ⟨⟨hp.1, hc.1, hw.1⟩, ⟨hp.2.1, hc.2.1, hw.2.1⟩, hp.2.2, hc.2.2, hw.2.2⟩

/-- Witness for C4: the three parts instantiated at concrete
descriptors with rms_db = −20, −16 and −22. -/
theorem c4_witness :
    RecMsg.rmsGood (-20) ∈
      (generate_recommendations ⟨-20, -3, 12, 60, [], 0, 0, []⟩
        ⟨"", "", 0, "", "", "", ""⟩).good_points ∧
    RecMsg.rmsGood (-16) ∈
      (generate_recommendations ⟨-16, -3, 12, 60, [], 0, 0, []⟩
        ⟨"", "", 0, "", "", "", ""⟩).good_points ∧
    RecMsg.rmsLow (-22) ∉
      (generate_recommendations ⟨-22, -3, 12, 60, [], 0, 0, []⟩
        ⟨"", "", 0, "", "", "", ""⟩).critical :=
  ⟨c4_rms_boundaries.1 _ _ rfl, c4_rms_boundaries.2.1 _ _ rfl,
    (c4_rms_boundaries.2.2 _ _ rfl (RecMsg.rmsLow (-22)) (by decide)).1⟩

/-! ### Claim theorems for the analysis pipeline -/

/-- C2: after Nyquist normalization and clipping, a degenerate window
(low_norm ≥ high_norm) makes `bandpass_filter` return an all-zero
sequence of the input's length without raising, and a failure of the
scipy design/application stage yields the same all-zero sequence
instead of a propagated error. -/
theorem c2_bandpass_failsoft :
    ∀ (f : SosFilter) (sr : ℚ) (audio : List ℝ) (low high : ℚ),
      (clipQ (high / (sr / 2)) 0.001 0.999 ≤ clipQ (low / (sr / 2)) 0.001 0.999 →
        bandpass_filter f sr audio low high = List.replicate audio.length 0) ∧
      (f.apply (clipQ (low / (sr / 2)) 0.001 0.999) (clipQ (high / (sr / 2)) 0.001 0.999)
          audio = none →
        bandpass_filter f sr audio low high = List.replicate audio.length 0) := by
  intro f sr audio low high
  constructor
  · intro h
    simp only [bandpass_filter]
    rw [if_pos h]
    exact map_mul_zero audio
  · intro h
    simp only [bandpass_filter]
    split_ifs with hd
    · exact map_mul_zero audio
    · rw [h]
      exact map_mul_zero audio

/-- Witness for C2: an inverted window (low = 100 Hz, high = 50 Hz) and
a failing filter stage on a proper window (20–60 Hz), both at
sr = 44100 on input [1], return [0]. -/
theorem c2_witness :
    (clipQ ((50 : ℚ) / (44100 / 2)) 0.001 0.999 ≤
      clipQ ((100 : ℚ) / (44100 / 2)) 0.001 0.999) ∧
    bandpass_filter failFilter 44100 [(1 : ℝ)] 100 50 =
      List.replicate [(1 : ℝ)].length 0 ∧
    failFilter.apply (clipQ ((20 : ℚ) / (44100 / 2)) 0.001 0.999)
      (clipQ ((60 : ℚ) / (44100 / 2)) 0.001 0.999) [(1 : ℝ)] = none ∧
    bandpass_filter failFilter 44100 [(1 : ℝ)] 20 60 =
      List.replicate [(1 : ℝ)].length 0 :=
  ⟨by norm_num [clipQ], (c2_bandpass_failsoft failFilter 44100 [1] 100 50).1
    (by norm_num [clipQ]), rfl, (c2_bandpass_failsoft failFilter 44100 [1] 20 60).2 rfl⟩

/-- C6: `calculate_stereo_width` always lies in [0, 100]; identical
left and right channels give exactly 0; fewer than two channels give 0;
zero total mid+side energy gives 0. -/
theorem c6_stereo_width_range :
    ∀ y : List (List ℝ),
      (0 ≤ calculate_stereo_width y ∧ calculate_stereo_width y ≤ 100) ∧
      (y.getD 0 [] = y.getD 1 [] → calculate_stereo_width y = 0) ∧
      (y.length < 2 → calculate_stereo_width y = 0) ∧
      (((List.zipWith (fun a b => (a + b) / 2) (y.getD 0 []) (y.getD 1 [])).map
            fun x => x ^ 2).sum +
          ((List.zipWith (fun a b => (a - b) / 2) (y.getD 0 []) (y.getD 1 [])).map
            fun x => x ^ 2).sum = 0 →
        calculate_stereo_width y = 0) :=
  fun y => ⟨stereo_width_nonneg_le y, stereo_width_zero_of_identical y,
    stereo_width_zero_of_short y, stereo_width_zero_of_silent y⟩

/-- Witness for C6: the identical-channel case at [[1],[1]], the
single-channel case at [[1]] and the silent case at [[0],[0]]. -/
theorem c6_witness :
    calculate_stereo_width [[(1 : ℝ)], [1]] = 0 ∧
    calculate_stereo_width [[(1 : ℝ)]] = 0 ∧
    calculate_stereo_width [[(0 : ℝ)], [0]] = 0 :=
  ⟨(c6_stereo_width_range [[1], [1]]).2.1 rfl,
    (c6_stereo_width_range [[1]]).2.2.1 (by norm_num),
    (c6_stereo_width_range [[0], [0]]).2.2.2 (by norm_num)⟩

/-- C10: `load_audio` duplicates a 1-D (mono) librosa result into two
identical channels, so the resulting buffer has exactly two channels,
the channel-count-below-2 branch of `calculate_stereo_width` cannot
fire on it, and the computed stereo width is exactly 0. -/
theorem c10_mono_width_zero :
    ∀ s : List ℝ,
      load_audio (RawAudio.oneD s) = [s, s] ∧
      (load_audio (RawAudio.oneD s)).length = 2 ∧
      ¬(load_audio (RawAudio.oneD s)).length < 2 ∧
      calculate_stereo_width (load_audio (RawAudio.oneD s)) = 0 := by
  intro s
  exact ⟨rfl, rfl, by simp [load_audio], stereo_width_zero_of_identical _ rfl⟩

/-- C5: for every valid buffer (≥1 channel, first channel non-empty)
`analyze_2mix` succeeds and the returned descriptor satisfies
rms_db ≤ peak_db, where rms_db is the dB of the mean framewise linear
RMS of the mono downmix plus ε and peak_db is the dB of the maximum
absolute mono sample plus ε. In the exact-real model the inequality
holds exactly, hence in particular within floating tolerance. -/
theorem c5_rms_le_peak (f : SosFilter) (c : List ℝ) (cs : List (List ℝ)) (sr : ℚ)
    (dur : ℝ) (hc : c ≠ []) :
    rmsLePeakOf (analyze_2mix f ⟨c :: cs, sr, dur⟩) := by
  have hmono_ne : npMeanAxis0 (c :: cs) ≠ [] := npMeanAxis0_ne_nil c cs hc
  obtain ⟨p, hp_eq, hp_mem, hp_ub⟩ :=
    npMax_spec ((npMeanAxis0 (c :: cs)).map fun x => |x|)
      (by simpa using hmono_ne)
  have hp0 : 0 ≤ p := by
    obtain ⟨z, _, rfl⟩ := List.mem_map.mp hp_mem
    exact abs_nonneg z
  have hub : ∀ x ∈ npMeanAxis0 (c :: cs), |x| ≤ p := fun x hx =>
    hp_ub _ (List.mem_map_of_mem _ hx)
  have hr_ub := librosaRMS_le (npMeanAxis0 (c :: cs)) 2048 512 p hp0 hub
  have hr_nn := librosaRMS_nonneg (npMeanAxis0 (c :: cs)) 2048 512
  have hmean_le : npMean (librosaRMS (npMeanAxis0 (c :: cs)) 2048 512) ≤ p :=
    npMean_le _ _ (librosaRMS_ne_nil _ _ _) hr_ub
  have hmean_nn : 0 ≤ npMean (librosaRMS (npMeanAxis0 (c :: cs)) 2048 512) :=
    npMean_nonneg _ hr_nn
  rw [analyze_2mix_ok f (c :: cs) sr dur p hp_eq]
  simp only [rmsLePeakOf]
  apply mul_le_mul_of_nonneg_left _ (by norm_num : (0 : ℝ) ≤ 20)
  have h1 : (0 : ℝ) < npMean (librosaRMS (npMeanAxis0 (c :: cs)) 2048 512) + 1e-10 :=
    add_pos_of_nonneg_of_pos hmean_nn (by norm_num)
  have h2 : (0 : ℝ) < p + 1e-10 := add_pos_of_nonneg_of_pos hp0 (by norm_num)
  exact (Real.logb_le_logb (by norm_num) h1 h2).mpr (add_le_add_right hmean_le _)

/-- Witness for C5: the one-channel, one-sample buffer [[0]]. -/
theorem c5_witness :
    rmsLePeakOf (analyze_2mix failFilter ⟨[[(0 : ℝ)]], 44100, 1⟩) :=
  c5_rms_le_peak failFilter [0] [] 44100 1 (by simp)

/-- C7: on a buffer whose samples are all exactly zero (with ≥1 channel
and a non-empty first channel), `analyze_2mix` yields
rms_db = peak_db = 20·log10(1e-10) = −200 dB (the ε floor) and
dynamic_range = 0 (the 95th and 10th percentiles of the constant
framewise dB array coincide). -/
theorem c7_silent_buffer (f : SosFilter) (c : List ℝ) (cs : List (List ℝ)) (sr : ℚ)
    (dur : ℝ) (hc : c ≠ []) (hz : ∀ ch ∈ c :: cs, ∀ x ∈ ch, x = 0) :
    silentDescriptorOf (analyze_2mix f ⟨c :: cs, sr, dur⟩) := by
  have hmono0 : ∀ x ∈ npMeanAxis0 (c :: cs), x = 0 := npMeanAxis0_zero _ hz
  have hmono_ne : npMeanAxis0 (c :: cs) ≠ [] := npMeanAxis0_ne_nil c cs hc
  obtain ⟨p, hp_eq, hp_mem, hp_ub⟩ :=
    npMax_spec ((npMeanAxis0 (c :: cs)).map fun x => |x|)
      (by simpa using hmono_ne)
  have hp0 : p = 0 := by
    obtain ⟨z, hzz, rfl⟩ := List.mem_map.mp hp_mem
    rw [hmono0 z hzz]
    exact abs_zero
  have habs : ∀ x ∈ npMeanAxis0 (c :: cs), |x| ≤ 0 := fun x hx => by
    rw [hmono0 x hx]; simp
  have hr0 : ∀ r ∈ librosaRMS (npMeanAxis0 (c :: cs)) 2048 512, r = 0 := fun r hr =>
    le_antisymm (librosaRMS_le _ _ _ 0 le_rfl habs r hr) (librosaRMS_nonneg _ _ _ r hr)
  have hmean0 : npMean (librosaRMS (npMeanAxis0 (c :: cs)) 2048 512) = 0 :=
    npMean_zero _ hr0
  have hdr : calculate_dynamic_range (npMeanAxis0 (c :: cs)) = 0 := by
    simp only [calculate_dynamic_range]
    have hdbne : ((librosaRMS (npMeanAxis0 (c :: cs)) 2048 512).map
        fun r => 20 * Real.logb 10 (r + 1e-10)) ≠ [] := by
      simp [librosaRMS_ne_nil]
    have hdball : ∀ x ∈ (librosaRMS (npMeanAxis0 (c :: cs)) 2048 512).map
        fun r => 20 * Real.logb 10 (r + 1e-10), x = 20 * Real.logb 10 (1e-10) := by
      intro x hx
      obtain ⟨r, hr, rfl⟩ := List.mem_map.mp hx
      rw [hr0 r hr, zero_add]
    rw [npPercentile_const _ _ 95 hdbne hdball (by norm_num) (by norm_num),
      npPercentile_const _ _ 10 hdbne hdball (by norm_num) (by norm_num)]
    ring
  rw [analyze_2mix_ok f (c :: cs) sr dur p hp_eq]
  simp only [silentDescriptorOf]
  rw [hp0, hmean0, zero_add]
  refine ⟨rfl, rfl, ?_, hdr⟩
  rw [logb_ten_eps]
  norm_num

/-- Witness for C7: the all-zero two-channel buffer [[0],[0]]. -/
theorem c7_witness :
    silentDescriptorOf (analyze_2mix failFilter ⟨[[(0 : ℝ)], [0]], 44100, 1⟩) :=
  c7_silent_buffer failFilter [0] [[0]] 44100 1 (by simp)
    (by
      intro ch hch x hx
      rcases List.mem_cons.mp hch with rfl | hch'
      · simpa using hx
      · rcases List.mem_cons.mp hch' with rfl | hch''
        · simpa using hx
        · simp at hch'')

/-- C1 (counterexample): on a buffer with one zero-length channel,
`analyze_2mix` does not fail fast with a distinct InvalidInput error —
it raises numpy's generic ValueError (from the max reduction over the
empty mono signal), and only after the framewise RMS feature has been
computed. -/
theorem c1_counterexample :
    analyze_2mix failFilter ⟨[([] : List ℝ)], 44100, 0⟩ =
      .error PyError.valueError ∧
    PyError.valueError ≠ PyError.invalidInput :=
  ⟨rfl, by decide⟩

/-- C1 (amended): `analyze_2mix` performs no input validation. For
every buffer with at least one channel, all of whose channels are
zero-length, it raises the generic ValueError coming from the max
reduction over the empty mono downmix — a failure that occurs after
the framewise RMS computation, not a distinct InvalidInput raised
before any feature computation. -/
theorem c1_no_input_validation (f : SosFilter) (ys : List (List ℝ)) (sr : ℚ)
    (dur : ℝ) (hne : ys ≠ []) (hempty : ∀ ch ∈ ys, ch = []) :
    analyze_2mix f ⟨ys, sr, dur⟩ = .error PyError.valueError ∧
    analyze_2mix f ⟨ys, sr, dur⟩ ≠ .error PyError.invalidInput := by
  obtain ⟨c, cs, rfl⟩ := List.exists_cons_of_ne_nil hne
  have hc : c = [] := hempty c (List.mem_cons_self _ _)
  subst hc
  have h : analyze_2mix f ⟨[] :: cs, sr, dur⟩ = .error PyError.valueError := rfl
  rw [h]
  exact ⟨rfl, by simp⟩

/-- Witness for C1's amended theorem: the two-empty-channel buffer. -/
theorem c1_witness :
    analyze_2mix failFilter ⟨[([] : List ℝ), []], 44100, 0⟩ =
      .error PyError.valueError ∧
    analyze_2mix failFilter ⟨[([] : List ℝ), []], 44100, 0⟩ ≠
      .error PyError.invalidInput :=
  c1_no_input_validation failFilter [[], []] 44100 0 (by simp)
    (by
      intro ch hch
      rcases List.mem_cons.mp hch with rfl | h
      · rfl
      · simpa using h)

end PA
